import Mathlib

/-!
Verification development for the pgp-rs OpenPGP parsing library.

The Rust sources (`src/lib.rs`, `src/armor.rs`, `src/util.rs`,
`src/publickey.rs`, `src/errors.rs`) are shallowly embedded below:
byte buffers become `List Nat` (with byte values < 256 where relevant),
machine integers become `Nat` with explicit `% 2^32` where u32 wrapping
matters, fallible operations return `Except` / `PResult`, and the
out-of-bounds index panics reachable in `PacketIterator::next` and
`ArmorType::from_captures` are modeled by explicit `panic` outcomes.
-/

namespace Pgp

/-- Error kinds of the library (the `error_chain!` kinds of errors.rs:
`Armor`, `Packet`, `Unsupported`, `UnknownPacket`), plus a `chained`
case for io errors wrapped with a context message via `chain_err`. -/
inductive PgpError : Type where
  | armor : PgpError
  | packet : PgpError
  | unsupported (t : String) : PgpError
  | unknownPacket (t : Nat) : PgpError
  | chained (msg : String) : PgpError
deriving DecidableEq

/-- util.rs `read_bignum` (together with `read_bytes`) over a byte cursor
modeled as the list of remaining bytes: read a 2-byte big-endian bit
length, compute `(bit_len + 7) / 8`, then read exactly that many payload
bytes verbatim, returning them with the remaining bytes.  A short read
yields the chained truncated-input errors of util.rs. -/
def read_bignum (data : List Nat) : Except PgpError (List Nat × List Nat) :=
  match data with
  | b0 :: b1 :: rest =>
    let bit_len := (b0 <<< 8) ||| b1
    let len := (bit_len + 7) / 8
    if rest.length < len then .error (.chained "Could not read packet bytes")
    else .ok (rest.take len, rest.drop len)
  | _ => .error (.chained "Could not read size for bignum")

/-- publickey.rs `RsaPublicKey`; bignums are kept verbatim as byte lists. -/
structure RsaPublicKey where
  n : List Nat
  e : List Nat
  timestamp : Nat
deriving DecidableEq

/-- publickey.rs `DsaPublicKey` (modeled data, no reader in the source). -/
structure DsaPublicKey where
  p : List Nat
  q : List Nat
  g : List Nat
  y : List Nat
deriving DecidableEq

/-- publickey.rs `ElgamalPublicKey` (modeled data, no reader in the source). -/
structure ElgamalPublicKey where
  p : List Nat
  g : List Nat
  y : List Nat
deriving DecidableEq

/-- publickey.rs `PublicKey`. -/
inductive PublicKey : Type where
  | rsa (k : RsaPublicKey)
  | dsa (k : DsaPublicKey)
  | elgamal (k : ElgamalPublicKey)
deriving DecidableEq

/-- publickey.rs `PublicKey::read_rsa`: two bignums `n` then `e`. -/
def PublicKey.read_rsa (data : List Nat) (timestamp : Nat) : Except PgpError PublicKey :=
  match read_bignum data with
  | .error err => .error err
  | .ok (n, d1) =>
    match read_bignum d1 with
    | .error err => .error err
    | .ok (e, _) => .ok (.rsa { n := n, e := e, timestamp := timestamp })

/-- publickey.rs `PublicKey::read`: version byte (must be 4), 4-byte
big-endian timestamp, algorithm byte (1 = RSA, anything else is an
unsupported key format). Short reads give the chained io errors. -/
def PublicKey.read (data : List Nat) : Except PgpError PublicKey :=
  match data with
  | [] => .error (.chained "Could not read PublicKey version")
  | v :: d1 =>
    if v ≠ 4 then .error (.unsupported "PublicKey packet is not v4")
    else
      match d1 with
      | b0 :: b1 :: b2 :: b3 :: d2 =>
        let timestamp := (((((b0 <<< 8) ||| b1) <<< 8) ||| b2) <<< 8) ||| b3
        match d2 with
        | [] => .error (.chained "Could not read PublicKey key type")
        | alg :: d3 =>
          if alg = 1 then PublicKey.read_rsa d3 timestamp
          else .error (.unsupported "Key format")
      | _ => .error (.chained "Could not read PublicKey timestamp")

/-- lib.rs `Packet`. -/
inductive Packet : Type where
  | publicKey (k : PublicKey)
deriving DecidableEq

/-- lib.rs `PacketIterator` state: the buffer, the cursor, and the
desync latch `errored`. -/
structure PacketIterator where
  data : List Nat
  cursor : Nat
  errored : Bool
deriving DecidableEq

/-- Outcome of one `PacketIterator::next` call: `done` models `None`,
`item` models `Some(result)` together with the successor state, and
`panic` models the Rust index-out-of-bounds panic in the length loop. -/
inductive NextOutcome : Type where
  | done
  | item (r : Except PgpError Packet) (s : PacketIterator)
  | panic

/-- The big-endian length-byte accumulation loop of lib.rs
(`len = len << 8; len |= data[cursor] as usize`), reading `n` bytes
starting at index `c`.  Only used under the bounds guard of
`PacketIterator.next`, so the `getD` default is never taken. -/
def readBE (data : List Nat) (c n : Nat) : Nat :=
  (List.range n).foldl (fun len i => (len <<< 8) ||| data.getD (c + i) 0) 0

/-- The body of lib.rs `PacketIterator::next` past the done-guard:
tag-byte decoding, the three framing checks (marker bit, new-style bit,
indeterminate length), the unguarded length-byte loop (which panics
when the buffer ends inside the length field), the
`cursor + len >= data.len()` payload check, and the per-tag dispatch. -/
def nextBody (s : PacketIterator) : NextOutcome :=
  let tag_byte := s.data.getD s.cursor 0
    let tag := (tag_byte >>> 2) &&& 0x0f
    let len_type := tag_byte &&& 0x03
    let style := (tag_byte >>> 6) &&& 0x01
    let check := (tag_byte >>> 7) &&& 0x01
    if check = 0 then .item (.error .packet) { s with errored := true }
    else if style ≠ 0 then
      .item (.error (.unsupported "new-style packet length")) { s with errored := true }
    else if len_type = 3 then
      .item (.error (.unsupported "indeterminate-length packets")) { s with errored := true }
    else
      let c1 := s.cursor + 1
      let len_bytes := 1 <<< len_type
      if s.data.length < c1 + len_bytes then .panic
      else
        let len := readBE s.data c1 len_bytes
        let c2 := c1 + len_bytes
        if s.data.length ≤ c2 + len then
          .item (.error .packet) { s with cursor := c2, errored := true }
        else
          let payload := (s.data.drop c2).take len
          let s2 := { s with cursor := c2 + len }
          if tag = 6 then
            match PublicKey.read payload with
            | .ok val => .item (.ok (.publicKey val)) s2
            | .error err => .item (.error err) s2
          else .item (.error (.unknownPacket tag)) s2

/-- lib.rs `PacketIterator::next`: `None` (here `.done`) when the
buffer is exhausted or the stream has desynced, else `nextBody`. -/
def PacketIterator.next (s : PacketIterator) : NextOutcome :=
  if s.data.length ≤ s.cursor ∨ s.errored = true then .done
  else nextBody s

/-- Fueled collection of the iterator; `none` covers the panic outcome
(and exhausted fuel, which `read_stream`'s fuel choice avoids). -/
def runIter : Nat → PacketIterator → Option (List (Except PgpError Packet))
  | 0, _ => none
  | fuel + 1, s =>
    match s.next with
    | .done => some []
    | .panic => none
    | .item r s' => (runIter fuel s').map (fun l => r :: l)

/-- lib.rs `read_stream`: collect the whole packet iterator over a buffer.
`none` models a panic escaping the collection. -/
def read_stream (data : List Nat) : Option (List (Except PgpError Packet)) :=
  runIter (data.length + 1) { data := data, cursor := 0, errored := false }

/-- A minimal, completely valid single-packet buffer: old-format tag 6
(public key), one length byte declaring 12 payload bytes, and a v4 RSA
public-key body whose payload ends exactly at the end of the buffer. -/
def exactFitBuffer : List Nat :=
  [0x98, 12, 4, 0, 0, 0, 0, 1, 0, 1, 1, 0, 1, 1]

/-- A buffer with two validly framed old-format packets: first a tag-2
packet (unknown type) with a 1-byte payload, then the exact-fit v4 RSA
public-key packet. -/
def twoPacketBuffer : List Nat :=
  [0x88, 1, 0xAA] ++ exactFitBuffer

/-- One round of the CRC-24 inner loop of armor.rs `Armor::calc_crc`,
with the u32 wrap of `crc <<= 1` explicit: shift left one bit (mod
2^32), and if the `crc & 0x01000000` test fires, XOR with the
polynomial constant 0x01864CFB. -/
def round (acc : Nat) : Nat :=
  if ((acc <<< 1) % 4294967296) &&& 0x01000000 = 0x01000000
  then ((acc <<< 1) % 4294967296) ^^^ 0x01864CFB
  else (acc <<< 1) % 4294967296

/-- `n` iterations of `round` (the `for _ in 0..8` loop). -/
def rounds : Nat → Nat → Nat
  | 0, acc => acc
  | n + 1, acc => rounds n (round acc)

/-- Processing one payload byte in `Armor::calc_crc`: XOR `byte << 16`
into the accumulator (u32 arithmetic), then run 8 rounds. -/
def byteStep (acc b : Nat) : Nat :=
  rounds 8 (acc ^^^ ((b <<< 16) % 4294967296))

/-- armor.rs `Armor::calc_crc`: accumulator initialized to 0x00B704CE,
one `byteStep` per payload byte, result masked with `& 0x00ffffff`. -/
def calc_crc (data : List Nat) : Nat :=
  (data.foldl byteStep 0x00B704CE) &&& 0x00ffffff

/-- The reference CRC-24 round, stated over an unbounded accumulator:
shift left by 1; if bit 24 (0x01000000) is set, XOR with 0x01864CFB. -/
def refRound (acc : Nat) : Nat :=
  if (acc <<< 1).testBit 24 = true then (acc <<< 1) ^^^ 0x01864CFB
  else acc <<< 1

/-- `n` iterations of the reference round. -/
def refRounds : Nat → Nat → Nat
  | 0, acc => acc
  | n + 1, acc => refRounds n (refRound acc)

/-- Reference per-byte step: XOR `byte << 16` into the accumulator,
then 8 reference rounds. -/
def refByteStep (acc b : Nat) : Nat :=
  refRounds 8 (acc ^^^ (b <<< 16))

/-- The reference CRC-24 definition: start at 0x00B704CE, process each
payload byte, and mask the final accumulator to its low 24 bits. -/
def crc24_ref (data : List Nat) : Nat :=
  (data.foldl refByteStep 0x00B704CE) &&& 0x00ffffff

/-- armor.rs `ArmorType`. -/
inductive ArmorType : Type where
  | message (part : Option Nat) (total : Option Nat)
  | publicKey
  | privateKey
  | signature
deriving DecidableEq

/-- armor.rs `Header`: one `name: value` armor header field. -/
structure Header where
  name : String
  value : String
deriving DecidableEq

/-- armor.rs `Armor`. -/
structure Armor where
  kind : ArmorType
  data : List Nat
  headers : List Header
deriving DecidableEq

/-- Outcome of an armor-side computation: `ok`, an error result, or a
Rust panic (reachable through the `unwrap` in
`ArmorType::from_captures` when a captured number overflows usize). -/
inductive PResult (α : Type) : Type where
  | ok (a : α)
  | err (e : PgpError)
  | panic
deriving DecidableEq

def PResult.bind {α β : Type} (x : PResult α) (f : α → PResult β) : PResult β :=
  match x with
  | .ok a => f a
  | .err e => .err e
  | .panic => .panic

/-- The character class `[A-Z ]` of `ARMOR_HEADER_REGEX`. -/
def labelChar (c : Char) : Bool :=
  (decide (65 ≤ c.toNat) && decide (c.toNat ≤ 90)) || decide (c.toNat = 32)

/-- The `\d` class of `ARMOR_HEADER_REGEX`, modeled as the ASCII
digits 0-9.  The regex crate's Unicode `\d` (`\p{Nd}`) also matches
non-ASCII decimal digits, which `str::parse::<usize>` then rejects, so
the real parser panics through the `unwrap` on such lines; statements
about the grammar's total behavior are therefore scoped to ASCII lines
(`asciiLine`), where this model and the code agree. -/
def digitChar (c : Char) : Bool :=
  decide (48 ≤ c.toNat) && decide (c.toNat ≤ 57)

/-- `true` when every character of the line is ASCII: the fragment of
inputs on which the ASCII `\d` model coincides with the regex crate's
Unicode `\d`. -/
def asciiLine (line : String) : Bool :=
  line.data.all (fun c => decide (c.toNat < 128))

/-- Strip an expected leading character sequence, returning the rest. -/
def stripLead : List Char → List Char → Option (List Char)
  | [], ys => some ys
  | _ :: _, [] => none
  | x :: xs, y :: ys => if y = x then stripLead xs ys else none

/-- Strip an expected trailing character sequence, returning the rest. -/
def stripTail (t ys : List Char) : Option (List Char) :=
  (stripLead t.reverse ys.reverse).map List.reverse

/-- Parse the trailing `(\d+)(?:/(\d+))?` groups of a header line. -/
def parseNums (r : List Char) : Option (List Char × Option (List Char)) :=
  if (r.takeWhile digitChar).isEmpty then none
  else
    match r.dropWhile digitChar with
    | [] => some (r.takeWhile digitChar, none)
    | '/' :: r2 =>
      if r2.isEmpty then none
      else if r2.all digitChar then some (r.takeWhile digitChar, some r2)
      else none
    | _ => none

/-- Anchored matching of `ARMOR_HEADER_REGEX` / `ARMOR_FOOTER_REGEX`:
after the fixed lead and before the five trailing dashes the line must
be `([A-Z ]+)` optionally followed by one space and `(\d+)(?:/(\d+))?`.
Returns the three capture groups.  Because the space separating label
and number is itself in `[A-Z ]`, the greedy label group first absorbs
it and gives exactly one space back when a number group is present,
which is the capture split the regex engine produces. -/
def armorMid (mid : List Char) :
    Option (List Char × Option (List Char) × Option (List Char)) :=
  match mid.dropWhile labelChar with
  | [] =>
    if (mid.takeWhile labelChar).isEmpty then none
    else some (mid.takeWhile labelChar, none, none)
  | _ :: _ =>
    match parseNums (mid.dropWhile labelChar) with
    | none => none
    | some (d1, d2) =>
      match (mid.takeWhile labelChar).getLast? with
      | some c =>
        if c = ' ' then
          if (mid.takeWhile labelChar).dropLast.isEmpty then none
          else some ((mid.takeWhile labelChar).dropLast, some d1, d2)
        else none
      | none => none

/-- Full anchored line match: strip the fixed lead, strip the five
trailing dashes, and process the middle through `armorMid`. -/
def armorMatch (lead : List Char) (line : String) :
    Option (List Char × Option (List Char) × Option (List Char)) :=
  match stripLead lead line.data with
  | none => none
  | some rest =>
    match stripTail "-----".data rest with
    | none => none
    | some mid => armorMid mid

/-- Numeric value of a captured all-digit string. -/
def valNat (d : List Char) : Nat :=
  d.foldl (fun a c => a * 10 + (c.toNat - 48)) 0

/-- `str::parse::<usize>` on a captured digit string: its value when it
fits the 64-bit usize range, otherwise an overflow error (`none`). -/
def parseUsize (d : List Char) : Option Nat :=
  if valNat d < 18446744073709551616 then some (valNat d) else none

/-- `capt.at(i).map(|s| s.parse::<usize>().unwrap())`: an absent
capture gives `none`; a present capture whose parse overflows panics. -/
def capParse : Option (List Char) → PResult (Option Nat)
  | none => .ok none
  | some d =>
    match parseUsize d with
    | some v => .ok (some v)
    | none => .panic

/-- armor.rs `ArmorType::from_captures` over the capture groups: map
the label to a variant; only `MESSAGE` reads the number captures. -/
def ArmorType.from_captures (g1 : List Char) (g2 g3 : Option (List Char)) :
    PResult ArmorType :=
  if g1 = "PUBLIC KEY BLOCK".data then .ok .publicKey
  else if g1 = "PRIVATE KEY BLOCK".data then .ok .privateKey
  else if g1 = "SIGNATURE".data then .ok .signature
  else if g1 = "MESSAGE".data then
    (capParse g2).bind fun part =>
      (capParse g3).bind fun total => .ok (.message part total)
  else .err .armor

def hdrLead : List Char := "-----BEGIN PGP ".data

def ftrLead : List Char := "-----END PGP ".data

/-- Shared body of `from_header` / `from_footer`: match the anchored
regex (armor error on no match) and dispatch on the captures. -/
def ArmorType.from_capt_line (lead : List Char) (line : String) : PResult ArmorType :=
  match armorMatch lead line with
  | none => .err .armor
  | some (g1, g2, g3) => ArmorType.from_captures g1 g2 g3

/-- armor.rs `ArmorType::from_header`. -/
def ArmorType.from_header (line : String) : PResult ArmorType :=
  ArmorType.from_capt_line hdrLead line

/-- armor.rs `ArmorType::from_footer`. -/
def ArmorType.from_footer (line : String) : PResult ArmorType :=
  ArmorType.from_capt_line ftrLead line

/-- Modelled from the spec: base64 value of one character, for
rustc_serialize's `FromBase64` (an external crate, not in src/). -/
def b64val (c : Char) : Option Nat :=
  if 65 ≤ c.toNat ∧ c.toNat ≤ 90 then some (c.toNat - 65)
  else if 97 ≤ c.toNat ∧ c.toNat ≤ 122 then some (c.toNat - 97 + 26)
  else if 48 ≤ c.toNat ∧ c.toNat ≤ 57 then some (c.toNat - 48 + 52)
  else if c = '+' then some 62
  else if c = '/' then some 63
  else none

/-- Modelled from the spec: reassemble 6-bit groups into bytes; a
leftover group of one character is a base64 format error. -/
def b64chunks : List Nat → Option (List Nat)
  | [] => some []
  | [_] => none
  | [a, b] => some [(a <<< 2) ||| (b >>> 4)]
  | [a, b, c] => some [(a <<< 2) ||| (b >>> 4), ((b &&& 15) <<< 4) ||| (c >>> 2)]
  | a :: b :: c :: d :: rest =>
    (b64chunks rest).map fun t =>
      ((a <<< 2) ||| (b >>> 4)) :: (((b &&& 15) <<< 4) ||| (c >>> 2)) ::
        (((c &&& 3) <<< 6) ||| d) :: t

/-- Modelled from the spec: base64-decode one armor line
(rustc_serialize `FromBase64`): standard alphabet, `=` permitted only
as trailing padding, `none` on any malformed input. -/
def b64decode (s : String) : Option (List Nat) :=
  if (s.data.dropWhile (fun c => !(c == '='))).all (fun c => c == '=') then
    ((s.data.takeWhile (fun c => !(c == '='))).mapM b64val).bind b64chunks
  else none

/-- The `line.split(": ")` of the header-field loop, producing the
pieces left to right (first argument accumulates the current piece in
reverse). -/
def splitColonSpace : List Char → List Char → List String
  | acc, [] => [String.mk acc.reverse]
  | acc, ':' :: ' ' :: rest => String.mk acc.reverse :: splitColonSpace [] rest
  | acc, c :: rest => splitColonSpace (c :: acc) rest

/-- The header-field loop of `Armor::read`: each line before the first
empty line must split on `": "` into exactly two pieces and becomes a
`Header`; running out of lines is an armor error.  Returns the fields
and the remaining lines. -/
def parseFields : List String → PResult (List Header × List String)
  | [] => .err .armor
  | l :: rest =>
    if l = "" then .ok ([], rest)
    else
      match splitColonSpace [] l.data with
      | [n, v] =>
        (parseFields rest).bind fun hr =>
          .ok ({ name := n, value := v } :: hr.1, hr.2)
      | _ => .err .armor

/-- The stored CRC of the checksum line: its three decoded bytes read
as a big-endian 24-bit value. -/
def crcLineValue (crcBytes : List Nat) : Nat :=
  ((crcBytes.getD 0 0) <<< 16) ||| ((crcBytes.getD 1 0) <<< 8) ||| (crcBytes.getD 2 0)

/-- The body loop of `Armor::read`: base64-decode and accumulate every
line until one starting with `=`; that checksum line must decode to
exactly 3 bytes forming the stored big-endian CRC.  An empty body line
and running out of lines are armor errors; a base64 failure carries the
source's chained context message (its text abbreviated here).  Returns
(payload, stored CRC, remaining lines); the comparison of the stored
CRC against `calc_crc`, which in the source ends the body loop, is done
by `armorRead` immediately after, before any further line is read. -/
def parseBody : List String → List Nat → PResult (List Nat × Nat × List String)
  | [], _ => .err .armor
  | l :: rest, acc =>
    match l.data with
    | [] => .err .armor
    | c :: cs =>
      if c = '=' then
        match b64decode (String.mk cs) with
        | none => .err (.chained "not base64 data")
        | some crcBytes =>
          if crcBytes.length = 3 then .ok (acc, crcLineValue crcBytes, rest)
          else .err .armor
      else
        match b64decode l with
        | none => .err (.chained "not base64 data")
        | some bs => parseBody rest (acc ++ bs)

/-- armor.rs `Armor::read`, over the sequence of input lines
(`armored.lines()`): parse the header line, the header-field block, and
the body; check the stored CRC against `calc_crc` of the payload; then
the next line must be a footer of the same `ArmorType`.  Remaining
lines after the footer are never inspected. -/
def armorRead (ls : List String) : PResult Armor :=
  match ls with
  | [] => .err .armor
  | l0 :: rest =>
    (ArmorType.from_header l0).bind fun ty =>
      (parseFields rest).bind fun hr =>
        (parseBody hr.2 []).bind fun bcr =>
          if bcr.2.1 ≠ calc_crc bcr.1 then .err .armor
          else
            match bcr.2.2 with
            | [] => .err .armor
            | f :: _ =>
              (ArmorType.from_footer f).bind fun ty2 =>
                if ty2 ≠ ty then .err .armor
                else .ok { kind := ty, data := bcr.1, headers := hr.1 }

/-- `true` exactly when a present capture overflows the usize range. -/
def overflowCapture : Option (List Char) → Bool
  | some d => decide (18446744073709551616 ≤ valNat d)
  | none => false

/-- `true` exactly when the line matches the armor grammar as a
`MESSAGE` line one of whose captured numbers overflows usize. -/
def messageOverflow (lead : List Char) (line : String) : Bool :=
  match armorMatch lead line with
  | some (g1, g2, g3) =>
    if g1 = "MESSAGE".data then overflowCapture g2 || overflowCapture g3 else false
  | none => false

/-- A minimal valid armored block as a line sequence: a SIGNATURE
header, no header fields, an empty payload, its correct checksum line
(`=twTO` encodes the CRC-24 of the empty payload, 0xB704CE), and the
matching footer. -/
def armorFixture : List String :=
  ["-----BEGIN PGP SIGNATURE-----", "", "=twTO", "-----END PGP SIGNATURE-----"]

/-- C1: evaluating the framer on a buffer holding one valid public-key
packet whose payload extends exactly to the end of the buffer.  The
`cursor + len >= data.len()` comparison fires on the exact-fit case, so
the framer emits a packet-format error and desyncs even though exactly
the declared number of payload bytes remains and the payload parses as
a valid v4 RSA public key. -/
theorem packet_exact_fit_rejected :
    read_stream exactFitBuffer = some [.error .packet]
  ∧ PublicKey.read [4, 0, 0, 0, 0, 1, 0, 1, 1, 0, 1, 1] =
      .ok (.rsa { n := [1], e := [1], timestamp := 0 }) := by
  exact ⟨rfl, rfl⟩

/-- C2: a buffer holding a single valid old-format tag byte (0x80
declares one length byte) makes the length-byte loop index past the end
of the buffer: `next` panics instead of returning an error element. -/
theorem truncated_length_panics :
    PacketIterator.next { data := [0x80], cursor := 0, errored := false } = .panic := by
  exact rfl

/-- C3: on the two-packet buffer the unknown-tag error on the first
packet is content-level (framing continues), but the second, valid
public-key packet ends exactly at the end of the buffer, so the
`>=` payload check rejects it with a packet-format error instead of
yielding `Packet::PublicKey`. -/
theorem content_error_isolation_buffer_eval :
    read_stream twoPacketBuffer =
      some [.error (.unknownPacket 2), .error .packet] := by
  exact rfl

lemma and_two_pow_eq_iff (x n : Nat) : x &&& 2 ^ n = 2 ^ n ↔ x.testBit n = true := by
  constructor
  · intro h
    have h2 := congrArg (fun y => y.testBit n) h
    simpa [Nat.testBit_and, Nat.testBit_two_pow] using h2
  · intro h
    apply Nat.eq_of_testBit_eq
    intro i
    simp only [Nat.testBit_and, Nat.testBit_two_pow]
    by_cases hi : n = i
    · subst hi; simp [h]
    · simp [hi]

lemma guard24 (x : Nat) : (x &&& 0x01000000 = 0x01000000) ↔ x.testBit 24 = true := by
  have h : (0x01000000 : Nat) = 2 ^ 24 := by norm_num
  rw [h]
  exact and_two_pow_eq_iff x 24

lemma testBit_shl_one (x j : Nat) : (x <<< 1).testBit (j + 1) = x.testBit j := by
  have h1 : 1 ≤ j + 1 := Nat.succ_le_succ (Nat.zero_le j)
  simp [Nat.testBit_shiftLeft, h1]

lemma testBit_shl_one_zero (x : Nat) : (x <<< 1).testBit 0 = false := by
  simp [Nat.testBit_shiftLeft]

lemma testBit_high_of_lt {x n i : Nat} (h : x < 2 ^ n) (hi : n ≤ i) :
    x.testBit i = false :=
  Nat.testBit_lt_two_pow (lt_of_lt_of_le h (Nat.pow_le_pow_right (by norm_num) hi))

lemma lt_two_pow_of_high_bit {x n : Nat} (h : x < 2 ^ (n + 1))
    (hb : x.testBit n = false) : x < 2 ^ n := by
  apply Nat.lt_pow_two_of_testBit
  intro i hi
  rcases Nat.eq_or_lt_of_le hi with he | hlt
  · rw [← he]; exact hb
  · exact testBit_high_of_lt h hlt

lemma xor_shl (a b n : Nat) : (a ^^^ b) <<< n = (a <<< n) ^^^ (b <<< n) := by
  apply Nat.eq_of_testBit_eq
  intro i
  simp only [Nat.testBit_shiftLeft, Nat.testBit_xor]
  by_cases h : n ≤ i
  · simp [h]
  · simp [h]

lemma xor_xor_cancel (a b c : Nat) : (a ^^^ c) ^^^ (b ^^^ c) = a ^^^ b := by
  apply Nat.eq_of_testBit_eq
  intro i
  simp only [Nat.testBit_xor]
  cases ha : a.testBit i <;> cases hb : b.testBit i <;> cases hc : c.testBit i <;> rfl

lemma shl_one_lt {x n : Nat} (h : x < 2 ^ n) : x <<< 1 < 2 ^ (n + 1) := by
  rw [Nat.shiftLeft_eq, pow_succ]
  exact Nat.mul_lt_mul_of_lt_of_le h (le_refl 2) (by norm_num)

lemma refRound_eq_true {acc : Nat} (h : (acc <<< 1).testBit 24 = true) :
    refRound acc = (acc <<< 1) ^^^ 0x01864CFB := by
  unfold refRound
  rw [h]
  simp

lemma refRound_eq_false {acc : Nat} (h : (acc <<< 1).testBit 24 = false) :
    refRound acc = acc <<< 1 := by
  unfold refRound
  rw [h]
  simp

lemma refRound_lt {acc : Nat} (h : acc < 2 ^ 24) : refRound acc < 2 ^ 24 := by
  have hs : acc <<< 1 < 2 ^ 25 := shl_one_lt h
  cases hb : (acc <<< 1).testBit 24
  · rw [refRound_eq_false hb]
    exact lt_two_pow_of_high_bit hs hb
  · rw [refRound_eq_true hb]
    apply lt_two_pow_of_high_bit (n := 24)
    · exact Nat.xor_lt_two_pow hs (by norm_num)
    · rw [Nat.testBit_xor, hb]
      have hp : (0x01864CFB : Nat).testBit 24 = true := by decide
      rw [hp]
      rfl

lemma testBit_xor_shl (x y : Nat) :
    ((x ^^^ y) <<< 1).testBit 24 =
      (((x <<< 1).testBit 24) ^^ ((y <<< 1).testBit 24)) := by
  rw [xor_shl, Nat.testBit_xor]

lemma refRound_linear (x y : Nat) :
    refRound (x ^^^ y) = refRound x ^^^ refRound y := by
  cases hx : (x <<< 1).testBit 24 <;> cases hy : (y <<< 1).testBit 24
  · rw [refRound_eq_false (by rw [testBit_xor_shl, hx, hy]; rfl),
      refRound_eq_false hx, refRound_eq_false hy, xor_shl]
  · rw [refRound_eq_true (by rw [testBit_xor_shl, hx, hy]; rfl),
      refRound_eq_false hx, refRound_eq_true hy, xor_shl, Nat.xor_assoc]
  · rw [refRound_eq_true (by rw [testBit_xor_shl, hx, hy]; rfl),
      refRound_eq_true hx, refRound_eq_false hy, xor_shl, Nat.xor_assoc,
      Nat.xor_assoc, Nat.xor_comm (y <<< 1) 0x01864CFB]
  · rw [refRound_eq_false (by rw [testBit_xor_shl, hx, hy]; rfl),
      refRound_eq_true hx, refRound_eq_true hy, xor_shl]
    exact (xor_xor_cancel (x <<< 1) (y <<< 1) 0x01864CFB).symm

lemma refRound_ne_zero {z : Nat} (hz : z ≠ 0) : refRound z ≠ 0 := by
  cases hb : (z <<< 1).testBit 24
  · rw [refRound_eq_false hb]
    intro h
    rw [Nat.shiftLeft_eq] at h
    rcases Nat.mul_eq_zero.mp h with h2 | h2
    · exact hz h2
    · norm_num at h2
  · rw [refRound_eq_true hb]
    intro h
    have h0 := congrArg (fun y => y.testBit 0) h
    have hp : (0x01864CFB : Nat).testBit 0 = true := by decide
    simp only [Nat.testBit_xor, testBit_shl_one_zero, Nat.zero_testBit, hp] at h0
    exact Bool.noConfusion h0

lemma refRounds_lt {acc : Nat} (n : Nat) (h : acc < 2 ^ 24) :
    refRounds n acc < 2 ^ 24 := by
  induction n generalizing acc with
  | zero => exact h
  | succ m ih => exact ih (refRound_lt h)

lemma refRounds_linear (n x y : Nat) :
    refRounds n (x ^^^ y) = refRounds n x ^^^ refRounds n y := by
  induction n generalizing x y with
  | zero => rfl
  | succ m ih =>
    show refRounds m (refRound (x ^^^ y)) = _
    rw [refRound_linear, ih]
    rfl

lemma refRounds_ne_zero {z : Nat} (n : Nat) (hz : z ≠ 0) : refRounds n z ≠ 0 := by
  induction n generalizing z with
  | zero => exact hz
  | succ m ih => exact ih (refRound_ne_zero hz)

lemma refRounds_add (m n x : Nat) :
    refRounds (m + n) x = refRounds n (refRounds m x) := by
  induction m generalizing x with
  | zero => rw [Nat.zero_add]; rfl
  | succ k ih =>
    have he : k + 1 + n = (k + n) + 1 := by omega
    rw [he]
    show refRounds (k + n) (refRound x) = _
    rw [ih (refRound x)]
    rfl

lemma xor_cancel_left (a b c : Nat) : (c ^^^ a) ^^^ (c ^^^ b) = a ^^^ b := by
  rw [Nat.xor_comm c a, Nat.xor_comm c b]
  exact xor_xor_cancel a b c

lemma xor_xor_self (a c : Nat) : (a ^^^ c) ^^^ a = c := by
  rw [Nat.xor_comm a c, Nat.xor_assoc, Nat.xor_self, Nat.xor_zero]

lemma round_eq_refRound {acc : Nat} (h : acc < 2 ^ 24) : round acc = refRound acc := by
  have h1 : acc <<< 1 < 4294967296 := lt_trans (shl_one_lt h) (by norm_num)
  unfold round refRound
  rw [Nat.mod_eq_of_lt h1]
  by_cases hb : (acc <<< 1).testBit 24 = true
  · rw [if_pos ((guard24 _).mpr hb), if_pos hb]
  · rw [if_neg (fun hc => hb ((guard24 _).mp hc)), if_neg hb]

lemma rounds_eq_refRounds {acc : Nat} (n : Nat) (h : acc < 2 ^ 24) :
    rounds n acc = refRounds n acc := by
  induction n generalizing acc with
  | zero => rfl
  | succ m ih =>
    show rounds m (round acc) = refRounds m (refRound acc)
    rw [round_eq_refRound h]
    exact ih (refRound_lt h)

lemma byte_shl16_lt {b : Nat} (hb : b < 256) : b <<< 16 < 2 ^ 24 := by
  rw [Nat.shiftLeft_eq]
  calc b * 2 ^ 16 < 256 * 2 ^ 16 :=
        Nat.mul_lt_mul_of_lt_of_le hb (le_refl (2 ^ 16)) (by norm_num)
    _ = 2 ^ 24 := by norm_num

lemma byteStep_eq_ref {acc b : Nat} (h : acc < 2 ^ 24) (hb : b < 256) :
    byteStep acc b = refByteStep acc b := by
  have h1 : b <<< 16 < 2 ^ 24 := byte_shl16_lt hb
  unfold byteStep refByteStep
  rw [Nat.mod_eq_of_lt (lt_trans h1 (by norm_num))]
  exact rounds_eq_refRounds 8 (Nat.xor_lt_two_pow h h1)

lemma refByteStep_lt {acc b : Nat} (h : acc < 2 ^ 24) (hb : b < 256) :
    refByteStep acc b < 2 ^ 24 :=
  refRounds_lt 8 (Nat.xor_lt_two_pow h (byte_shl16_lt hb))

lemma refFold_lt (l : List Nat) (acc : Nat) (h : acc < 2 ^ 24)
    (hb : ∀ b ∈ l, b < 256) : l.foldl refByteStep acc < 2 ^ 24 := by
  induction l generalizing acc with
  | nil => exact h
  | cons b t ih =>
    have hb0 : b < 256 := hb b (List.mem_cons_self b t)
    have hbt : ∀ x ∈ t, x < 256 := fun x hx => hb x (List.mem_cons_of_mem b hx)
    exact ih (refByteStep acc b) (refByteStep_lt h hb0) hbt

lemma fold_eq_refFold (l : List Nat) (acc : Nat) (h : acc < 2 ^ 24)
    (hb : ∀ b ∈ l, b < 256) : l.foldl byteStep acc = l.foldl refByteStep acc := by
  induction l generalizing acc with
  | nil => rfl
  | cons b t ih =>
    have hb0 : b < 256 := hb b (List.mem_cons_self b t)
    have hbt : ∀ x ∈ t, x < 256 := fun x hx => hb x (List.mem_cons_of_mem b hx)
    show t.foldl byteStep (byteStep acc b) = t.foldl refByteStep (refByteStep acc b)
    rw [byteStep_eq_ref h hb0]
    exact ih (refByteStep acc b) (refByteStep_lt h hb0) hbt

lemma calc_crc_eq_crc24_ref {l : List Nat} (hb : ∀ b ∈ l, b < 256) :
    calc_crc l = crc24_ref l := by
  unfold calc_crc crc24_ref
  rw [fold_eq_refFold l 0x00B704CE (by norm_num) hb]

lemma refFold_diff (l : List Nat) (a a2 : Nat) :
    (l.foldl refByteStep a) ^^^ (l.foldl refByteStep a2) =
      refRounds (8 * l.length) (a ^^^ a2) := by
  induction l generalizing a a2 with
  | nil => simp [refRounds]
  | cons b t ih =>
    show (t.foldl refByteStep (refByteStep a b)) ^^^
        (t.foldl refByteStep (refByteStep a2 b)) = _
    rw [ih]
    have hd : refByteStep a b ^^^ refByteStep a2 b = refRounds 8 (a ^^^ a2) := by
      unfold refByteStep
      rw [← refRounds_linear, xor_xor_cancel]
    rw [hd, ← refRounds_add]
    congr 1
    simp [List.length_cons]
    omega

lemma refFold_flip_ne (pre : List Nat) (b : Nat) (post : List Nat) (k : Nat) :
    ((pre ++ (b ^^^ 2 ^ k) :: post).foldl refByteStep 0x00B704CE) ≠
      ((pre ++ b :: post).foldl refByteStep 0x00B704CE) := by
  intro heq
  rw [List.foldl_append, List.foldl_append] at heq
  simp only [List.foldl_cons] at heq
  have hx : (post.foldl refByteStep
        (refByteStep (pre.foldl refByteStep 0x00B704CE) (b ^^^ 2 ^ k))) ^^^
      (post.foldl refByteStep
        (refByteStep (pre.foldl refByteStep 0x00B704CE) b)) = 0 := by
    rw [heq]
    exact Nat.xor_self _
  rw [refFold_diff] at hx
  have hd : refByteStep (pre.foldl refByteStep 0x00B704CE) (b ^^^ 2 ^ k) ^^^
      refByteStep (pre.foldl refByteStep 0x00B704CE) b =
        refRounds 8 ((2 ^ k) <<< 16) := by
    unfold refByteStep
    rw [← refRounds_linear, xor_cancel_left, ← xor_shl, xor_xor_self]
  rw [hd, ← refRounds_add] at hx
  have h2 : (2 ^ k) <<< 16 ≠ 0 := by
    rw [Nat.shiftLeft_eq, ← pow_add]
    exact Nat.ne_of_gt (Nat.pos_pow_of_pos (k + 16) (by norm_num))
  exact refRounds_ne_zero _ h2 hx

lemma flipped_bytes_lt {pre post : List Nat} {b k : Nat} (hk : k < 8)
    (hb : ∀ x ∈ pre ++ b :: post, x < 256) :
    ∀ x ∈ pre ++ (b ^^^ 2 ^ k) :: post, x < 256 := by
  intro x hx
  rcases List.mem_append.mp hx with h | h
  · exact hb x (List.mem_append.mpr (Or.inl h))
  · rcases List.mem_cons.mp h with h | h
    · subst h
      have hbb : b < 2 ^ 8 :=
        lt_of_lt_of_le (hb b (List.mem_append.mpr (Or.inr (List.mem_cons_self b post))))
          (by norm_num)
      have hkk : 2 ^ k < 2 ^ 8 := Nat.pow_lt_pow_right (by norm_num) hk
      exact lt_of_lt_of_le (Nat.xor_lt_two_pow hbb hkk) (by norm_num)
    · exact hb x (List.mem_append.mpr (Or.inr (List.mem_cons_of_mem b h)))

lemma crc24_ref_flip_ne {pre post : List Nat} {b k : Nat} (hk : k < 8)
    (hb : ∀ x ∈ pre ++ b :: post, x < 256) :
    crc24_ref (pre ++ (b ^^^ 2 ^ k) :: post) ≠ crc24_ref (pre ++ b :: post) := by
  intro heq
  apply refFold_flip_ne pre b post k
  have hb1 : ∀ x ∈ pre ++ (b ^^^ 2 ^ k) :: post, x < 256 := flipped_bytes_lt hk hb
  have hf1 : (pre ++ (b ^^^ 2 ^ k) :: post).foldl refByteStep 0x00B704CE < 2 ^ 24 :=
    refFold_lt _ _ (by norm_num) hb1
  have hf2 : (pre ++ b :: post).foldl refByteStep 0x00B704CE < 2 ^ 24 :=
    refFold_lt _ _ (by norm_num) hb
  have hmask : (0x00ffffff : Nat) = 2 ^ 24 - 1 := by norm_num
  unfold crc24_ref at heq
  rw [hmask, Nat.and_pow_two_sub_one_eq_mod, Nat.and_pow_two_sub_one_eq_mod,
    Nat.mod_eq_of_lt hf1, Nat.mod_eq_of_lt hf2] at heq
  exact heq

/-- C5: armor.rs `Armor::calc_crc` (u32 arithmetic, `& 0x01000000` bit
test, final `& 0x00ffffff` mask) computes exactly the reference CRC-24
recurrence stated over an unbounded accumulator with a bit-24 test, for
every sequence of byte values. -/
theorem calc_crc_matches_reference (data : List Nat)
    (h : ∀ b ∈ data, b < 256) : calc_crc data = crc24_ref data :=
  calc_crc_eq_crc24_ref h

/-- C5 witness: the agreement evaluated on the concrete payload
`"123"`. -/
theorem calc_crc_matches_reference_witness :
    calc_crc [0x31, 0x32, 0x33] = crc24_ref [0x31, 0x32, 0x33] :=
  calc_crc_matches_reference [0x31, 0x32, 0x33] (by decide)

lemma armorMatch_eq_mid {lead : List Char} {line : String} {rest mid : List Char}
    (h1 : stripLead lead line.data = some rest)
    (h2 : stripTail "-----".data rest = some mid) :
    armorMatch lead line = armorMid mid := by
  unfold armorMatch
  rw [h1]
  show (match stripTail "-----".data rest with
    | none => none
    | some mid => armorMid mid) = armorMid mid
  rw [h2]

example : ArmorType.from_header "-----BEGIN PGP PUBLIC KEY BLOCK-----" = .ok .publicKey := rfl

example : ArmorType.from_header "-----BEGIN PGP MESSAGE-----" = .ok (.message none none) := rfl

example : ArmorType.from_header "-----BEGIN PGP MESSAGE 42-----" = .ok (.message (some 42) none) := rfl

example : ArmorType.from_footer "-----END PGP MESSAGE 7/9-----" = .ok (.message (some 7) (some 9)) := rfl

example : ArmorType.from_header "-----BEGIN PGP SIGNATURE----" = .err .armor := rfl

lemma str_data_append (a b : String) : (a ++ b).data = a.data ++ b.data := rfl

lemma stripLead_append (xs ys : List Char) : stripLead xs (xs ++ ys) = some ys := by
  induction xs with
  | nil => rfl
  | cons x t ih => simp [stripLead, ih]

lemma stripTail_append (t xs : List Char) : stripTail t (xs ++ t) = some xs := by
  unfold stripTail
  rw [List.reverse_append, stripLead_append]
  simp

lemma takeWhile_app {p : Char → Bool} (xs : List Char) (c : Char) (cs : List Char)
    (hx : xs.all p = true) (hc : p c = false) :
    ((xs ++ c :: cs).takeWhile p = xs) ∧ ((xs ++ c :: cs).dropWhile p = c :: cs) := by
  induction xs with
  | nil => simp [List.takeWhile_cons, List.dropWhile_cons, hc]
  | cons x t ih =>
    rw [List.all_cons, Bool.and_eq_true] at hx
    have h2 := ih hx.2
    constructor
    · simp [List.takeWhile_cons, hx.1, h2.1]
    · simp [List.dropWhile_cons, hx.1, h2.2]

lemma takeWhile_all_self {p : Char → Bool} (xs : List Char) (hx : xs.all p = true) :
    (xs.takeWhile p = xs) ∧ (xs.dropWhile p = []) := by
  induction xs with
  | nil => simp
  | cons x t ih =>
    rw [List.all_cons, Bool.and_eq_true] at hx
    have h2 := ih hx.2
    constructor
    · simp [List.takeWhile_cons, hx.1, h2.1]
    · simp [List.dropWhile_cons, hx.1, h2.2]

lemma digit_not_label {c : Char} (h : digitChar c = true) : labelChar c = false := by
  unfold digitChar at h
  unfold labelChar
  simp at h ⊢
  omega

lemma isEmpty_false_of_ne_nil {xs : List Char} (h : xs ≠ []) : xs.isEmpty = false := by
  cases xs with
  | nil => exact absurd rfl h
  | cons x t => rfl

/-- On a line of shape `lead ++ label ++ " " ++ digits ++ "-----"` the
anchored matcher captures the label (without the separating space) and
the digit string. -/
lemma armorMatch_label_space_digits (lead lab : List Char) (s line : String)
    (hlab : lab.all labelChar = true) (hlabne : lab ≠ [])
    (hsne : s.data ≠ []) (hdig : s.data.all digitChar = true)
    (hline : line.data = lead ++ (((lab ++ [' ']) ++ s.data) ++ "-----".data)) :
    armorMatch lead line = some (lab, some s.data, none) := by
  obtain ⟨c, cs, hs⟩ : ∃ c cs, s.data = c :: cs := by
    cases hsd : s.data with
    | nil => exact absurd hsd hsne
    | cons a b => exact ⟨a, b, rfl⟩
  have hdc : digitChar c = true := by
    rw [hs, List.all_cons, Bool.and_eq_true] at hdig
    exact hdig.1
  have hlabsp : (lab ++ [' ']).all labelChar = true := by
    rw [List.all_append, Bool.and_eq_true]
    exact ⟨hlab, by decide⟩
  have htw := takeWhile_app (p := labelChar) (lab ++ [' ']) c cs hlabsp (digit_not_label hdc)
  have htd := takeWhile_all_self (p := digitChar) s.data hdig
  have h1 : stripLead lead line.data = some ((lab ++ [' '] ++ s.data) ++ "-----".data) := by
    rw [hline]
    exact stripLead_append lead _
  have h2 : stripTail "-----".data ((lab ++ [' '] ++ s.data) ++ "-----".data) =
      some (lab ++ [' '] ++ s.data) := stripTail_append _ _
  rw [armorMatch_eq_mid h1 h2]
  have hnum : parseNums (c :: cs) = some (c :: cs, none) := by
    unfold parseNums
    rw [← hs, htd.1, htd.2]
    rw [isEmpty_false_of_ne_nil hsne]
    simp [hs]
  unfold armorMid
  rw [hs, htw.1, htw.2, hnum, List.getLast?_concat, List.dropLast_concat,
    isEmpty_false_of_ne_nil hlabne]
  rfl

/-- C7 counterexample: the header grammar accepts a trailing number on
a `SIGNATURE` line — `from_header` returns `Ok(Signature)` for
`-----BEGIN PGP SIGNATURE 42-----` (the captured number is ignored for
every label except `MESSAGE`), rather than failing with an armor
error. -/
theorem signature_with_number_accepted :
    ArmorType.from_header "-----BEGIN PGP SIGNATURE 42-----" = .ok .signature := rfl

/-- C7 (amended): a trailing part number or part/total pair is
tolerated by the header/footer grammar on every label; for the three
non-`MESSAGE` labels the captured number is silently ignored, and only
on `MESSAGE` lines does it populate the part field. -/
theorem nonmessage_number_tolerated (s : String) (hne : s.data ≠ [])
    (hdig : s.data.all digitChar = true) :
    ArmorType.from_header ("-----BEGIN PGP SIGNATURE " ++ s ++ "-----") = .ok .signature
  ∧ ArmorType.from_header ("-----BEGIN PGP PUBLIC KEY BLOCK " ++ s ++ "-----") =
      .ok .publicKey
  ∧ ArmorType.from_footer ("-----END PGP PRIVATE KEY BLOCK " ++ s ++ "-----") =
      .ok .privateKey
  ∧ (valNat s.data < 18446744073709551616 →
      ArmorType.from_header ("-----BEGIN PGP MESSAGE " ++ s ++ "-----") =
        .ok (.message (some (valNat s.data)) none)) := by
  have hsig : armorMatch hdrLead ("-----BEGIN PGP SIGNATURE " ++ s ++ "-----") =
      some ("SIGNATURE".data, some s.data, none) := by
    apply armorMatch_label_space_digits hdrLead "SIGNATURE".data s _ (by decide)
      (by decide) hne hdig
    rw [str_data_append, str_data_append]
    have h0 : ("-----BEGIN PGP SIGNATURE ").data =
        hdrLead ++ ("SIGNATURE".data ++ [' ']) := by decide
    rw [h0]
    simp [List.append_assoc]
  have hpub : armorMatch hdrLead ("-----BEGIN PGP PUBLIC KEY BLOCK " ++ s ++ "-----") =
      some ("PUBLIC KEY BLOCK".data, some s.data, none) := by
    apply armorMatch_label_space_digits hdrLead "PUBLIC KEY BLOCK".data s _ (by decide)
      (by decide) hne hdig
    rw [str_data_append, str_data_append]
    have h0 : ("-----BEGIN PGP PUBLIC KEY BLOCK ").data =
        hdrLead ++ ("PUBLIC KEY BLOCK".data ++ [' ']) := by decide
    rw [h0]
    simp [List.append_assoc]
  have hprv : armorMatch ftrLead ("-----END PGP PRIVATE KEY BLOCK " ++ s ++ "-----") =
      some ("PRIVATE KEY BLOCK".data, some s.data, none) := by
    apply armorMatch_label_space_digits ftrLead "PRIVATE KEY BLOCK".data s _ (by decide)
      (by decide) hne hdig
    rw [str_data_append, str_data_append]
    have h0 : ("-----END PGP PRIVATE KEY BLOCK ").data =
        ftrLead ++ ("PRIVATE KEY BLOCK".data ++ [' ']) := by decide
    rw [h0]
    simp [List.append_assoc]
  have hmsg : armorMatch hdrLead ("-----BEGIN PGP MESSAGE " ++ s ++ "-----") =
      some ("MESSAGE".data, some s.data, none) := by
    apply armorMatch_label_space_digits hdrLead "MESSAGE".data s _ (by decide)
      (by decide) hne hdig
    rw [str_data_append, str_data_append]
    have h0 : ("-----BEGIN PGP MESSAGE ").data =
        hdrLead ++ ("MESSAGE".data ++ [' ']) := by decide
    rw [h0]
    simp [List.append_assoc]
  refine ⟨?_, ?_, ?_, ?_⟩
  · unfold ArmorType.from_header ArmorType.from_capt_line
    rw [hsig]
    show ArmorType.from_captures "SIGNATURE".data (some s.data) none = _
    unfold ArmorType.from_captures
    rw [if_neg (by decide), if_neg (by decide), if_pos rfl]
  · unfold ArmorType.from_header ArmorType.from_capt_line
    rw [hpub]
    show ArmorType.from_captures "PUBLIC KEY BLOCK".data (some s.data) none = _
    unfold ArmorType.from_captures
    rw [if_pos rfl]
  · unfold ArmorType.from_footer ArmorType.from_capt_line
    rw [hprv]
    show ArmorType.from_captures "PRIVATE KEY BLOCK".data (some s.data) none = _
    unfold ArmorType.from_captures
    rw [if_neg (by decide), if_pos rfl]
  · intro hov
    unfold ArmorType.from_header ArmorType.from_capt_line
    rw [hmsg]
    show ArmorType.from_captures "MESSAGE".data (some s.data) none = _
    unfold ArmorType.from_captures
    rw [if_neg (by decide), if_neg (by decide), if_neg (by decide), if_pos rfl]
    have hcp : capParse (some s.data) = .ok (some (valNat s.data)) := by
      show (match parseUsize s.data with
        | some v => PResult.ok (some v)
        | none => PResult.panic) = PResult.ok (some (valNat s.data))
      unfold parseUsize
      rw [if_pos hov]
    rw [hcp]
    rfl

/-- C7 witness: the amended statement evaluated at the digit string
`42` for all four label forms. -/
theorem nonmessage_number_tolerated_witness :
    ArmorType.from_header ("-----BEGIN PGP SIGNATURE " ++ "42" ++ "-----") = .ok .signature
  ∧ ArmorType.from_header ("-----BEGIN PGP PUBLIC KEY BLOCK " ++ "42" ++ "-----") =
      .ok .publicKey
  ∧ ArmorType.from_footer ("-----END PGP PRIVATE KEY BLOCK " ++ "42" ++ "-----") =
      .ok .privateKey
  ∧ ArmorType.from_header ("-----BEGIN PGP MESSAGE " ++ "42" ++ "-----") =
      .ok (.message (some (valNat "42".data)) none) := by
  have h := nonmessage_number_tolerated "42" (by decide) (by decide)
  exact ⟨h.1, h.2.1, h.2.2.1, h.2.2.2 (by decide)⟩

/-- C8 counterexample: a `MESSAGE` header line whose part number is
2^64 (just past the usize range) drives `from_captures` into the
`parse::<usize>().unwrap()` panic rather than an ok-or-error result. -/
theorem message_overflow_panics :
    ArmorType.from_header "-----BEGIN PGP MESSAGE 18446744073709551616-----" =
      .panic := rfl

lemma parseUsize_none_iff (d : List Char) :
    parseUsize d = none ↔ 18446744073709551616 ≤ valNat d := by
  unfold parseUsize
  by_cases h : valNat d < 18446744073709551616
  · rw [if_pos h]
    constructor
    · intro hc
      exact Option.noConfusion hc
    · intro hc
      omega
  · rw [if_neg h]
    constructor
    · intro _
      omega
    · intro _
      rfl

lemma from_capt_line_eq_some {lead : List Char} {line : String}
    {g1 : List Char} {g2 g3 : Option (List Char)}
    (hm : armorMatch lead line = some (g1, g2, g3)) :
    ArmorType.from_capt_line lead line = ArmorType.from_captures g1 g2 g3 := by
  unfold ArmorType.from_capt_line
  rw [hm]

lemma from_capt_line_eq_none {lead : List Char} {line : String}
    (hm : armorMatch lead line = none) :
    ArmorType.from_capt_line lead line = .err .armor := by
  unfold ArmorType.from_capt_line
  rw [hm]

lemma messageOverflow_eq_some {lead : List Char} {line : String}
    {g1 : List Char} {g2 g3 : Option (List Char)}
    (hm : armorMatch lead line = some (g1, g2, g3)) :
    messageOverflow lead line =
      if g1 = "MESSAGE".data then overflowCapture g2 || overflowCapture g3
      else false := by
  unfold messageOverflow
  rw [hm]

lemma messageOverflow_eq_none {lead : List Char} {line : String}
    (hm : armorMatch lead line = none) : messageOverflow lead line = false := by
  unfold messageOverflow
  rw [hm]

lemma from_capt_line_cases (lead : List Char) (line : String) :
    (ArmorType.from_capt_line lead line = .panic ↔ messageOverflow lead line = true)
  ∧ (ArmorType.from_capt_line lead line = .panic ∨
      (∃ t, ArmorType.from_capt_line lead line = .ok t) ∨
      ArmorType.from_capt_line lead line = .err .armor) := by
  cases hm : armorMatch lead line with
  | none => rw [from_capt_line_eq_none hm, messageOverflow_eq_none hm]; simp
  | some g =>
    obtain ⟨g1, g2, g3⟩ := g
    rw [from_capt_line_eq_some hm, messageOverflow_eq_some hm]
    unfold ArmorType.from_captures
    by_cases h1 : g1 = "PUBLIC KEY BLOCK".data
    · rw [if_pos h1, if_neg (by rw [h1]; decide)]
      simp
    · rw [if_neg h1]
      by_cases h2 : g1 = "PRIVATE KEY BLOCK".data
      · rw [if_pos h2, if_neg (by rw [h2]; decide)]
        simp
      · rw [if_neg h2]
        by_cases h3 : g1 = "SIGNATURE".data
        · rw [if_pos h3, if_neg (by rw [h3]; decide)]
          simp
        · rw [if_neg h3]
          by_cases h4 : g1 = "MESSAGE".data
          · rw [if_pos h4, if_pos h4]
            cases g2 with
            | none =>
              show ((capParse g3).bind _ = .panic ↔ _) ∧ _
              cases g3 with
              | none => simp [capParse, PResult.bind, overflowCapture]
              | some d3 =>
                cases hp : parseUsize d3 with
                | none =>
                  have hov := (parseUsize_none_iff d3).mp hp
                  simp [capParse, hp, PResult.bind, overflowCapture, hov]
                | some v =>
                  have hov : ¬ (18446744073709551616 ≤ valNat d3) := by
                    intro hc
                    rw [(parseUsize_none_iff d3).mpr hc] at hp
                    exact Option.noConfusion hp
                  simp [capParse, hp, PResult.bind, overflowCapture, hov]
            | some d2 =>
              cases hp2 : parseUsize d2 with
              | none =>
                have hov := (parseUsize_none_iff d2).mp hp2
                simp [capParse, hp2, PResult.bind, overflowCapture, hov]
              | some v2 =>
                have hov2 : ¬ (18446744073709551616 ≤ valNat d2) := by
                  intro hc
                  rw [(parseUsize_none_iff d2).mpr hc] at hp2
                  exact Option.noConfusion hp2
                cases g3 with
                | none => simp [capParse, hp2, PResult.bind, overflowCapture, hov2]
                | some d3 =>
                  cases hp : parseUsize d3 with
                  | none =>
                    have hov := (parseUsize_none_iff d3).mp hp
                    simp [capParse, hp2, hp, PResult.bind, overflowCapture, hov, hov2]
                  | some v =>
                    have hov : ¬ (18446744073709551616 ≤ valNat d3) := by
                      intro hc
                      rw [(parseUsize_none_iff d3).mpr hc] at hp
                      exact Option.noConfusion hp
                    simp [capParse, hp2, hp, PResult.bind, overflowCapture, hov, hov2]
          · rw [if_neg h4, if_neg h4]
            simp

/-- C8 (amended): header/footer line parsing of ASCII lines is total —
every such line yields an `ArmorType` or an armor-format error — except
that a line matching the grammar as `MESSAGE` with a captured part or
total number at or above 2^64 panics in `parse::<usize>().unwrap()`;
among ASCII lines the panic happens exactly on those.  (Non-ASCII lines
are outside this statement: the regex crate's Unicode `\d` also lets a
`MESSAGE` line carry non-ASCII decimal digits, which panic in the same
`unwrap` with an invalid-digit parse error rather than an overflow.) -/
theorem header_parse_total_except_overflow (line : String)
    (_hascii : asciiLine line = true) :
    (ArmorType.from_header line = .panic ↔ messageOverflow hdrLead line = true)
  ∧ (ArmorType.from_footer line = .panic ↔ messageOverflow ftrLead line = true)
  ∧ (ArmorType.from_header line = .panic ∨ (∃ t, ArmorType.from_header line = .ok t) ∨
      ArmorType.from_header line = .err .armor)
  ∧ (ArmorType.from_footer line = .panic ∨ (∃ t, ArmorType.from_footer line = .ok t) ∨
      ArmorType.from_footer line = .err .armor) :=
  ⟨(from_capt_line_cases hdrLead line).1, (from_capt_line_cases ftrLead line).1,
    (from_capt_line_cases hdrLead line).2, (from_capt_line_cases ftrLead line).2⟩

/-- C8 witness: on concrete ASCII lines — a `MESSAGE` header whose part
number overflows usize panics, and a `MESSAGE` footer with an in-range
part/total pair does not. -/
theorem header_parse_total_except_overflow_witness :
    ArmorType.from_header "-----BEGIN PGP MESSAGE 99999999999999999999999999-----" =
      .panic
  ∧ ArmorType.from_footer "-----END PGP MESSAGE 3/9-----" ≠ .panic := by
  constructor
  · exact (header_parse_total_except_overflow
      "-----BEGIN PGP MESSAGE 99999999999999999999999999-----" (by decide)).1.mpr
      (by decide)
  · intro hc
    have h := (header_parse_total_except_overflow
      "-----END PGP MESSAGE 3/9-----" (by decide)).2.1.mp hc
    exact absurd h (by decide)

lemma pbind_ok {α β : Type} {x : PResult α} {f : α → PResult β} {b : β}
    (h : x.bind f = .ok b) : ∃ a, x = .ok a ∧ f a = .ok b := by
  cases x with
  | ok a => exact ⟨a, rfl, h⟩
  | err e => exact PResult.noConfusion h
  | panic => exact PResult.noConfusion h

lemma parseFields_append (ex : List String) :
    ∀ (ls : List String) (hs : List Header) (r : List String),
      parseFields ls = .ok (hs, r) → parseFields (ls ++ ex) = .ok (hs, r ++ ex) := by
  intro ls
  induction ls with
  | nil =>
    intro hs r h
    exact PResult.noConfusion h
  | cons l t ih =>
    intro hs r h
    by_cases hl : l = ""
    · subst hl
      injection h with h2
      injection h2 with h4 h5
      rw [List.cons_append]
      show PResult.ok ([], t ++ ex) = _
      rw [← h4, ← h5]
    · rw [List.cons_append]
      simp only [parseFields, if_neg hl] at h ⊢
      cases hm : splitColonSpace [] l.data with
      | nil => rw [hm] at h; exact PResult.noConfusion h
      | cons n tl =>
        cases tl with
        | nil => rw [hm] at h; exact PResult.noConfusion h
        | cons v tl2 =>
          cases tl2 with
          | cons w tl3 => rw [hm] at h; exact PResult.noConfusion h
          | nil =>
            rw [hm] at h
            replace h : (parseFields t).bind
                (fun hr => PResult.ok ({ name := n, value := v } :: hr.1, hr.2)) =
                  PResult.ok (hs, r) := h
            obtain ⟨hr, hpf, hok⟩ := pbind_ok h
            show (parseFields (t ++ ex)).bind
                (fun hr => PResult.ok ({ name := n, value := v } :: hr.1, hr.2)) =
                  PResult.ok (hs, r ++ ex)
            rw [ih hr.1 hr.2 hpf]
            show PResult.ok ({ name := n, value := v } :: hr.1, hr.2 ++ ex) = _
            injection hok with h3
            injection h3 with h4 h5
            rw [← h4, ← h5]

lemma parseBody_append (ex : List String) :
    ∀ (ls : List String) (acc d : List Nat) (c : Nat) (r : List String),
      parseBody ls acc = .ok (d, c, r) → parseBody (ls ++ ex) acc = .ok (d, c, r ++ ex) := by
  intro ls
  induction ls with
  | nil =>
    intro acc d c r h
    exact PResult.noConfusion h
  | cons l t ih =>
    intro acc d c r h
    rw [List.cons_append]
    cases hld : l.data with
    | nil =>
      simp only [parseBody, hld] at h
      exact PResult.noConfusion h
    | cons ch cs =>
      by_cases hc : ch = '='
      · simp only [parseBody, hld, if_pos hc] at h ⊢
        cases hb : b64decode (String.mk cs) with
        | none => rw [hb] at h; exact PResult.noConfusion h
        | some crcBytes =>
          rw [hb] at h
          replace h : (if crcBytes.length = 3
              then PResult.ok (acc, crcLineValue crcBytes, t)
              else PResult.err PgpError.armor) = PResult.ok (d, c, r) := h
          show (if crcBytes.length = 3
              then PResult.ok (acc, crcLineValue crcBytes, t ++ ex)
              else PResult.err PgpError.armor) = PResult.ok (d, c, r ++ ex)
          by_cases h3 : crcBytes.length = 3
          · rw [if_pos h3] at h ⊢
            injection h with h4
            injection h4 with h5 h6
            injection h6 with h7 h8
            rw [h5, h7, ← h8]
          · rw [if_neg h3] at h
            exact PResult.noConfusion h
      · simp only [parseBody, hld, if_neg hc] at h ⊢
        cases hb : b64decode l with
        | none => rw [hb] at h; exact PResult.noConfusion h
        | some bs =>
          rw [hb] at h
          replace h : parseBody t (acc ++ bs) = PResult.ok (d, c, r) := h
          show parseBody (t ++ ex) (acc ++ bs) = PResult.ok (d, c, r ++ ex)
          exact ih (acc ++ bs) d c r h

lemma armorRead_cons (l0 : String) (rest : List String) :
    armorRead (l0 :: rest) =
      ((ArmorType.from_header l0).bind fun ty =>
        (parseFields rest).bind fun hr =>
          (parseBody hr.2 []).bind fun bcr =>
            if bcr.2.1 ≠ calc_crc bcr.1 then .err .armor
            else
              match bcr.2.2 with
              | [] => .err .armor
              | f :: _ =>
                (ArmorType.from_footer f).bind fun ty2 =>
                  if ty2 ≠ ty then .err .armor
                  else .ok { kind := ty, data := bcr.1, headers := hr.1 }) := rfl

lemma armorRead_append (ls extra : List String) (a : Armor)
    (h : armorRead ls = .ok a) : armorRead (ls ++ extra) = .ok a := by
  cases ls with
  | nil => exact PResult.noConfusion h
  | cons l0 rest =>
    rw [armorRead_cons] at h
    obtain ⟨ty, hty, h2⟩ := pbind_ok h
    obtain ⟨hr, hpf, h3⟩ := pbind_ok h2
    obtain ⟨bcr, hpb, h4⟩ := pbind_ok h3
    by_cases hcrc : bcr.2.1 ≠ calc_crc bcr.1
    · rw [if_pos hcrc] at h4
      exact PResult.noConfusion h4
    · rw [if_neg hcrc] at h4
      cases hbr : bcr.2.2 with
      | nil =>
        rw [hbr] at h4
        exact PResult.noConfusion h4
      | cons f t2 =>
        rw [hbr] at h4
        obtain ⟨ty2, hf, h5⟩ := pbind_ok h4
        by_cases hne : ty2 ≠ ty
        · rw [if_pos hne] at h5
          exact PResult.noConfusion h5
        · rw [if_neg hne] at h5
          rw [List.cons_append, armorRead_cons, hty]
          show (parseFields (rest ++ extra)).bind _ = _
          rw [parseFields_append extra rest hr.1 hr.2 hpf]
          show (parseBody (hr.2 ++ extra) []).bind _ = _
          rw [parseBody_append extra hr.2 [] bcr.1 bcr.2.1 bcr.2.2 hpb]
          show (if bcr.2.1 ≠ calc_crc bcr.1 then _ else _) = _
          rw [if_neg hcrc, hbr]
          show (ArmorType.from_footer f).bind _ = _
          rw [hf]
          show (if ty2 ≠ ty then _ else _) = _
          rw [if_neg hne]
          exact h5

/-- C10: whenever `Armor::read` succeeds on a sequence of lines,
appending arbitrary further lines after them leaves the decode result
unchanged — the reader consumes exactly one footer line after the
checksum line and never inspects anything beyond it. -/
theorem armor_read_ignores_trailing_lines (ls extra : List String) (a : Armor)
    (h : armorRead ls = .ok a) : armorRead (ls ++ extra) = .ok a :=
  armorRead_append ls extra a h

/-- C10 witness: the fixture decodes, and still decodes to the same
value with malformed trailing lines appended. -/
theorem armor_read_ignores_trailing_lines_witness :
    armorRead (armorFixture ++ ["@@ not armor @@", ""]) =
      .ok { kind := .signature, data := [], headers := [] } :=
  armor_read_ignores_trailing_lines armorFixture ["@@ not armor @@", ""]
    { kind := .signature, data := [], headers := [] } (by rfl)

/-- C6: flipping any single bit of any payload changes its CRC-24, and
`Armor::read` fails with an armor-format error whenever the stored
checksum of the body differs from the CRC-24 of the decoded payload —
so a payload bit flip that leaves the checksum line unchanged makes the
decode fail. -/
theorem crc_single_bit_flip_detected :
    (∀ (pre : List Nat) (b : Nat) (post : List Nat) (k : Nat), k < 8 →
      (∀ x ∈ pre ++ b :: post, x < 256) →
        calc_crc (pre ++ (b ^^^ 2 ^ k) :: post) ≠ calc_crc (pre ++ b :: post))
  ∧ (∀ (l0 : String) (fls : List String) (ty : ArmorType) (hds : List Header)
      (bls : List String) (d : List Nat) (c : Nat) (r : List String),
        ArmorType.from_header l0 = .ok ty → parseFields fls = .ok (hds, bls) →
        parseBody bls [] = .ok (d, c, r) → c ≠ calc_crc d →
          armorRead (l0 :: fls) = .err .armor) := by
  constructor
  · intro pre b post k hk hb
    rw [calc_crc_eq_crc24_ref (flipped_bytes_lt hk hb), calc_crc_eq_crc24_ref hb]
    exact crc24_ref_flip_ne hk hb
  · intro l0 fls ty hds bls d c r hh hf hb hc
    rw [armorRead_cons, hh]
    show (parseFields fls).bind _ = _
    rw [hf]
    show (parseBody bls []).bind _ = _
    rw [hb]
    show (if c ≠ calc_crc d then PResult.err PgpError.armor else _) = _
    rw [if_pos hc]

/-- C6 witness: flipping the lowest bit of the single payload byte 2
changes the CRC, and a block whose checksum line (`=AAAA`, storing 0)
disagrees with the CRC of its (empty) payload fails to decode. -/
theorem crc_single_bit_flip_detected_witness :
    calc_crc [3] ≠ calc_crc [2]
  ∧ armorRead ["-----BEGIN PGP SIGNATURE-----", "", "=AAAA"] = .err .armor := by
  constructor
  · exact crc_single_bit_flip_detected.1 [] 2 [] 0 (by decide) (by decide)
  · exact crc_single_bit_flip_detected.2 "-----BEGIN PGP SIGNATURE-----" ["", "=AAAA"]
      .signature [] ["=AAAA"] [] 0 [] (by rfl) (by rfl) (by rfl) (by decide)

lemma errored_next_done (s : PacketIterator) (h : s.errored = true) :
    s.next = .done := by
  unfold PacketIterator.next
  rw [if_pos (Or.inr h)]

lemma read_bignum_cons (b0 b1 : Nat) (rest : List Nat) :
    read_bignum (b0 :: b1 :: rest) =
      (if rest.length < (((b0 <<< 8) ||| b1) + 7) / 8
       then .error (.chained "Could not read packet bytes")
       else .ok (rest.take ((((b0 <<< 8) ||| b1) + 7) / 8),
                 rest.drop ((((b0 <<< 8) ||| b1) + 7) / 8))) := rfl

lemma read_bignum_error_chained (d : List Nat) (e : PgpError)
    (h : read_bignum d = .error e) : ∃ m, e = .chained m := by
  cases d with
  | nil =>
    injection h with h2
    exact ⟨_, h2.symm⟩
  | cons b0 t =>
    cases t with
    | nil =>
      injection h with h2
      exact ⟨_, h2.symm⟩
    | cons b1 rest =>
      rw [read_bignum_cons] at h
      by_cases hl : rest.length < (((b0 <<< 8) ||| b1) + 7) / 8
      · rw [if_pos hl] at h
        injection h with h2
        exact ⟨_, h2.symm⟩
      · rw [if_neg hl] at h
        exact Except.noConfusion h

lemma read_rsa_ne_packet (d : List Nat) (ts : Nat) :
    PublicKey.read_rsa d ts ≠ .error .packet := by
  intro h
  unfold PublicKey.read_rsa at h
  cases hm : read_bignum d with
  | error e =>
    rw [hm] at h
    injection h with h2
    obtain ⟨m, hme⟩ := read_bignum_error_chained d e hm
    rw [hme] at h2
    exact PgpError.noConfusion h2
  | ok p =>
    rw [hm] at h
    obtain ⟨n, d1⟩ := p
    replace h : (match read_bignum d1 with
      | .error err => Except.error err
      | .ok (e, _) =>
        Except.ok (PublicKey.rsa { n := n, e := e, timestamp := ts })) =
        Except.error PgpError.packet := h
    cases hm2 : read_bignum d1 with
    | error e2 =>
      rw [hm2] at h
      injection h with h2
      obtain ⟨m, hme⟩ := read_bignum_error_chained d1 e2 hm2
      rw [hme] at h2
      exact PgpError.noConfusion h2
    | ok p2 =>
      rw [hm2] at h
      obtain ⟨e2, d2⟩ := p2
      exact Except.noConfusion h

lemma publicKey_read_cons (v : Nat) (d1 : List Nat) :
    PublicKey.read (v :: d1) =
      (if v ≠ 4 then .error (.unsupported "PublicKey packet is not v4")
       else
         match d1 with
         | b0 :: b1 :: b2 :: b3 :: d2 =>
           match d2 with
           | [] => .error (.chained "Could not read PublicKey key type")
           | alg :: d3 =>
             if alg = 1 then
               PublicKey.read_rsa d3 ((((((b0 <<< 8) ||| b1) <<< 8) ||| b2) <<< 8) ||| b3)
             else .error (.unsupported "Key format")
         | _ => .error (.chained "Could not read PublicKey timestamp")) := rfl

lemma publicKey_read_ne_packet (d : List Nat) :
    PublicKey.read d ≠ .error .packet := by
  intro h
  cases d with
  | nil =>
    injection h with h2
    exact PgpError.noConfusion h2
  | cons v d1 =>
    rw [publicKey_read_cons] at h
    by_cases hv : v = 4
    · rw [if_neg (fun hc => hc hv)] at h
      cases d1 with
      | nil => injection h with h2; exact PgpError.noConfusion h2
      | cons b0 t1 =>
        cases t1 with
        | nil => injection h with h2; exact PgpError.noConfusion h2
        | cons b1 t2 =>
          cases t2 with
          | nil => injection h with h2; exact PgpError.noConfusion h2
          | cons b2 t3 =>
            cases t3 with
            | nil => injection h with h2; exact PgpError.noConfusion h2
            | cons b3 d2 =>
              cases d2 with
              | nil => injection h with h2; exact PgpError.noConfusion h2
              | cons alg d3 =>
                replace h : (if alg = 1 then
                    PublicKey.read_rsa d3
                      ((((((b0 <<< 8) ||| b1) <<< 8) ||| b2) <<< 8) ||| b3)
                  else Except.error (PgpError.unsupported "Key format")) =
                    Except.error PgpError.packet := h
                by_cases ha : alg = 1
                · rw [if_pos ha] at h
                  exact read_rsa_ne_packet d3 _ h
                · rw [if_neg ha] at h
                  injection h with h2
                  exact PgpError.noConfusion h2
    · rw [if_pos hv] at h
      injection h with h2
      exact PgpError.noConfusion h2

lemma next_packet_error_latches (s s' : PacketIterator) (r : Except PgpError Packet)
    (h : s.next = .item r s') (hr : r = .error .packet) : s'.errored = true := by
  subst hr
  unfold PacketIterator.next at h
  by_cases h0 : s.data.length ≤ s.cursor ∨ s.errored = true
  · rw [if_pos h0] at h
    exact NextOutcome.noConfusion h
  · rw [if_neg h0] at h
    simp only [nextBody] at h
    split at h
    · injection h with h1 h2
      rw [← h2]
    · split at h
      · injection h with h1 h2
        injection h1 with h3
        exact PgpError.noConfusion h3
      · split at h
        · injection h with h1 h2
          injection h1 with h3
          exact PgpError.noConfusion h3
        · split at h
          · exact NextOutcome.noConfusion h
          · split at h
            · injection h with h1 h2
              rw [← h2]
            · split at h
              · split at h
                · injection h with h1 h2
                  exact Except.noConfusion h1
                · rename_i err heq
                  injection h with h1 h2
                  injection h1 with h3
                  rw [h3] at heq
                  exact absurd heq (publicKey_read_ne_packet _)
              · injection h with h1 h2
                injection h1 with h3
                exact PgpError.noConfusion h3

lemma bit_and_one (b i : Nat) : (b >>> i) &&& 1 = if b.testBit i then 1 else 0 := by
  rw [Nat.and_one_is_mod, Nat.shiftRight_eq_div_pow]
  rcases Nat.mod_two_eq_zero_or_one (b / 2 ^ i) with h | h
  · have ht : b.testBit i = false := by
      rw [Nat.testBit_to_div_mod, h]
      rfl
    rw [h, ht]
    rfl
  · have ht : b.testBit i = true := by
      rw [Nat.testBit_to_div_mod, h]
      rfl
    rw [h, ht]
    rfl

lemma next_cons_eq (b : Nat) (rest : List Nat) :
    PacketIterator.next ⟨b :: rest, 0, false⟩ = nextBody ⟨b :: rest, 0, false⟩ := by
  unfold PacketIterator.next
  rw [if_neg (by simp)]

lemma nextBody_marker_clear {b : Nat} (rest : List Nat) (h7 : b.testBit 7 = false) :
    nextBody ⟨b :: rest, 0, false⟩ = .item (.error .packet) ⟨b :: rest, 0, true⟩ := by
  have hc : (b >>> 7) &&& 1 = 0 := by rw [bit_and_one, h7]; rfl
  simp only [nextBody, List.getD_cons_zero]
  rw [if_pos hc]

lemma nextBody_newstyle {b : Nat} (rest : List Nat) (h7 : b.testBit 7 = true)
    (h6 : b.testBit 6 = true) :
    nextBody ⟨b :: rest, 0, false⟩ =
      .item (.error (.unsupported "new-style packet length")) ⟨b :: rest, 0, true⟩ := by
  have hc : (b >>> 7) &&& 1 = 1 := by rw [bit_and_one, h7]; rfl
  have hst : (b >>> 6) &&& 1 = 1 := by rw [bit_and_one, h6]; rfl
  simp only [nextBody, List.getD_cons_zero]
  rw [hc, hst, if_neg (by decide), if_pos (by decide)]

lemma nextBody_indeterminate {b : Nat} (rest : List Nat) (h7 : b.testBit 7 = true)
    (h6 : b.testBit 6 = false) (h3 : b &&& 3 = 3) :
    nextBody ⟨b :: rest, 0, false⟩ =
      .item (.error (.unsupported "indeterminate-length packets")) ⟨b :: rest, 0, true⟩ := by
  have hc : (b >>> 7) &&& 1 = 1 := by rw [bit_and_one, h7]; rfl
  have hst : (b >>> 6) &&& 1 = 0 := by rw [bit_and_one, h6]; rfl
  simp only [nextBody, List.getD_cons_zero]
  rw [hc, hst, h3, if_neg (by decide), if_neg (by decide), if_pos rfl]

lemma read_stream_single (data : List Nat) (er : Except PgpError Packet)
    (s1 : PacketIterator) (hne : data ≠ [])
    (h : PacketIterator.next ⟨data, 0, false⟩ = .item er s1)
    (he : s1.errored = true) : read_stream data = some [er] := by
  cases data with
  | nil => exact absurd rfl hne
  | cons x t =>
    show runIter ((x :: t).length + 1) ⟨x :: t, 0, false⟩ = some [er]
    have hlen : (x :: t).length + 1 = t.length + 1 + 1 := by simp
    rw [hlen]
    show (match PacketIterator.next ⟨x :: t, 0, false⟩ with
      | .done => some []
      | .panic => none
      | .item r s' => (runIter (t.length + 1) s').map (fun l => r :: l)) = some [er]
    rw [h]
    show (match PacketIterator.next s1 with
      | .done => some []
      | .panic => none
      | .item r s' => (runIter t.length s').map (fun l => r :: l)).map
        (fun l => er :: l) = some [er]
    rw [errored_next_done s1 he]
    rfl

/-- C4 counterexample: on a buffer whose first byte 0x40 has bit 6 set
but the marker bit 7 clear, the framer emits a single packet-format
error element — not an unsupported-feature element — even though valid
legacy packet bytes follow. -/
theorem newstyle_bit_without_marker :
    read_stream [0x40, 0x88, 1, 0xAA] = some [.error .packet]
  ∧ Nat.testBit 0x40 6 = true ∧ Nat.testBit 0x40 7 = false :=
  ⟨rfl, by decide, by decide⟩

/-- C4 (amended): once desynced the framer yields no further elements;
every packet-format error element desyncs; and on a marker-set tag byte
the new-style bit, or the indeterminate length type, yields exactly one
unsupported-feature element with nothing after it, while a marker-clear
tag byte yields exactly one packet-format error element — in each case
regardless of what bytes follow in the buffer. -/
theorem framing_errors_fatal :
    (∀ s : PacketIterator, s.errored = true → s.next = .done)
  ∧ (∀ (s s' : PacketIterator) (r : Except PgpError Packet),
      s.next = .item r s' → r = .error .packet → s'.errored = true)
  ∧ (∀ (b : Nat) (rest : List Nat), b < 256 → b.testBit 7 = true → b.testBit 6 = true →
      read_stream (b :: rest) = some [.error (.unsupported "new-style packet length")])
  ∧ (∀ (b : Nat) (rest : List Nat), b < 256 → b.testBit 7 = true →
      b.testBit 6 = false → b &&& 3 = 3 →
      read_stream (b :: rest) = some [.error (.unsupported "indeterminate-length packets")])
  ∧ (∀ (b : Nat) (rest : List Nat), b < 256 → b.testBit 7 = false →
      read_stream (b :: rest) = some [.error .packet]) := by
  refine ⟨errored_next_done, next_packet_error_latches, ?_, ?_, ?_⟩
  · intro b rest hb h7 h6
    exact read_stream_single _ _ _ (by simp)
      (by rw [next_cons_eq]; exact nextBody_newstyle rest h7 h6) rfl
  · intro b rest hb h7 h6 h3
    exact read_stream_single _ _ _ (by simp)
      (by rw [next_cons_eq]; exact nextBody_indeterminate rest h7 h6 h3) rfl
  · intro b rest hb h7
    exact read_stream_single _ _ _ (by simp)
      (by rw [next_cons_eq]; exact nextBody_marker_clear rest h7) rfl

/-- C4 witness: the amended statement evaluated on concrete buffers —
a desynced state yields no element; 0xC0 (marker and new-style bits)
yields one unsupported element even with a valid packet following;
0x83 (indeterminate length) and 0x01 (marker clear) each yield their
single terminal element. -/
theorem framing_errors_fatal_witness :
    PacketIterator.next { data := [0x88, 1, 0xAA], cursor := 0, errored := true } = .done
  ∧ read_stream [0xC0, 0x88, 1, 0xAA] =
      some [.error (.unsupported "new-style packet length")]
  ∧ read_stream [0x83] = some [.error (.unsupported "indeterminate-length packets")]
  ∧ read_stream [0x01] = some [.error .packet] := by
  refine ⟨framing_errors_fatal.1 _ rfl, ?_, ?_, ?_⟩
  · exact framing_errors_fatal.2.2.1 0xC0 [0x88, 1, 0xAA] (by decide) (by decide)
      (by decide)
  · exact framing_errors_fatal.2.2.2.1 0x83 [] (by decide) (by decide) (by decide)
      (by decide)
  · exact framing_errors_fatal.2.2.2.2 0x01 [] (by decide) (by decide)

/-- C9: the bignum reader consumes a 2-byte big-endian bit length `B`,
computes `ceil(B / 8)` as `(B + 7) / 8`, and returns exactly that many
bytes verbatim in input order; it fails with the truncated-input error
exactly when fewer bytes remain; `B = 0` yields the empty sequence and
`B = 9` reads exactly 2 bytes. -/
theorem read_bignum_spec (b0 b1 : Nat) (rest : List Nat) :
    ((((b0 <<< 8) ||| b1) + 7) / 8 ≤ rest.length →
        read_bignum (b0 :: b1 :: rest) =
          .ok (rest.take ((((b0 <<< 8) ||| b1) + 7) / 8),
               rest.drop ((((b0 <<< 8) ||| b1) + 7) / 8))
      ∧ (rest.take ((((b0 <<< 8) ||| b1) + 7) / 8)).length =
          (((b0 <<< 8) ||| b1) + 7) / 8)
  ∧ (rest.length < (((b0 <<< 8) ||| b1) + 7) / 8 →
      read_bignum (b0 :: b1 :: rest) = .error (.chained "Could not read packet bytes"))
  ∧ read_bignum (0 :: 0 :: rest) = .ok ([], rest)
  ∧ (∀ (x y : Nat) (r2 : List Nat),
      read_bignum (0 :: 9 :: x :: y :: r2) = .ok ([x, y], r2)) := by
  refine ⟨fun h => ⟨?_, ?_⟩, fun h => ?_, ?_, fun x y r2 => ?_⟩
  · rw [read_bignum_cons, if_neg (Nat.not_lt.mpr h)]
  · rw [List.length_take]
    exact Nat.min_eq_left h
  · rw [read_bignum_cons, if_pos h]
  · rw [read_bignum_cons]
    have h00 : ((((0 : Nat) <<< 8) ||| 0) + 7) / 8 = 0 := by decide
    rw [h00, if_neg (Nat.not_lt_zero _)]
    rw [List.take_zero, List.drop_zero]
  · rw [read_bignum_cons]
    have h09 : ((((0 : Nat) <<< 8) ||| 9) + 7) / 8 = 2 := by decide
    rw [h09, if_neg (by simp only [List.length_cons]; omega)]
    rfl

/-- C9 witness: a bignum of bit length 9 followed by three bytes reads
exactly two of them; the same header with only one byte remaining fails
with the truncated-input error. -/
theorem read_bignum_spec_witness :
    read_bignum [0, 9, 5, 6, 7] = .ok ([5, 6], [7])
  ∧ read_bignum [0, 9, 5] = .error (.chained "Could not read packet bytes") := by
  constructor
  · exact ((read_bignum_spec 0 9 [5, 6, 7]).1 (by decide)).1
  · exact (read_bignum_spec 0 9 [5]).2.1 (by decide)

end Pgp


